import Mathlib

/-!
Shallow embedding of the `StorageService` of the fcgstorage repository
(src/storage/storage.service.ts) together with the pieces of its environment
it interacts with: the metadata repository (a list of `FileRecord` rows keyed
by `id`), the disk (a finite map from absolute path strings to byte contents),
and the configuration built in the service constructor.

Asynchronous filesystem / database / image-library effects are made explicit:
each fallible external step of `uploadFile` (blob write, sharp thumbnail
derivation, metadata save, compensating unlink) is resolved by a boolean
oracle carried in `UploadEnv`, and the fresh UUIDs produced by `uuidv4()` are
supplied by the same environment record.  Numeric environment variables are
carried already parsed (the `parseInt` plumbing of the constructor is
irrelevant to every property proved here); the `ALLOWED_MIME_TYPES` variable
is kept as a raw string and split on commas exactly as the constructor does.
-/

namespace FcgStorage

/-- Byte contents of a file on disk; the concrete bytes matter to no claim,
only presence/absence of paths. -/
abbrev Content := List Nat

/-- The disk: an association list from path strings to contents. -/
abbrev Disk := List (String × Content)

/-- Does a file exist at path `p`?  Models a successful `fs.access(p)`. -/
def diskHas (d : Disk) (p : String) : Bool :=
  d.any (fun e => e.1 == p)

/-- Models `fs.writeFile(p, c)`: creates or overwrites the file at `p`. -/
def diskWrite (d : Disk) (p : String) (c : Content) : Disk :=
  (p, c) :: d.filter (fun e => e.1 != p)

/-- Models a successful `fs.unlink(p)`: removes the file at `p`. -/
def diskUnlink (d : Disk) (p : String) : Disk :=
  d.filter (fun e => e.1 != p)

/-- Models `fs.readFile(p)`: `none` when the read throws (file absent). -/
def diskRead (d : Disk) (p : String) : Option Content :=
  (d.find? (fun e => e.1 == p)).map (·.2)

/-- One row of the `files_metadata` table (entities/file-metadata.entity.ts).
Enumerated columns (`category`, `entityType`) are carried as the strings they
are at the JavaScript runtime; `metadata` (jsonb) is carried as an opaque
optional string. -/
structure FileRecord where
  id : String
  originalFilename : String
  storedFilename : String
  mimetype : String
  size : Nat
  category : String
  entityType : Option String
  entityId : Option String
  path : String
  thumbnailPath : Option String
  uploadedBy : Option String
  description : Option String
  metadata : Option String
  uploadedAt : Nat
  updatedAt : Nat
  active : Bool
deriving DecidableEq

/-- Joint state of the service's two backing stores. -/
structure State where
  disk : Disk
  store : List FileRecord
deriving DecidableEq

/-- Models `repository.save(x)` for a row keyed by primary key `id`: the first
row with the same `id` is replaced, and a row with a fresh `id` is inserted. -/
def storeSave : List FileRecord → FileRecord → List FileRecord
  | [], x => [x]
  | r :: t, x => if r.id = x.id then x :: t else r :: storeSave t x

/-- Models `repository.findOne({ where: { id, active: true } })`. -/
def findActive (store : List FileRecord) (id : String) : Option FileRecord :=
  store.find? (fun r => r.id == id && r.active)

/-- Models `path.join(a, b)`.  For the arguments the service produces
(no trailing slashes, no `..` segments) Node's normalisation reduces to
separator insertion. -/
def pathJoin (a b : String) : String :=
  a ++ "/" ++ b

/-- Models JavaScript `s.split(',')` at the level of character lists:
the result always has at least one (possibly empty) field. -/
def splitCommaChars : List Char → List (List Char)
  | [] => [[]]
  | c :: cs =>
    if c = ',' then [] :: splitCommaChars cs
    else
      match splitCommaChars cs with
      | [] => [[c]]
      | h :: t => (c :: h) :: t

/-- Models JavaScript `s.split(',')` on Lean strings. -/
def jsSplitComma (s : String) : List String :=
  (splitCommaChars s.toList).map (fun l => String.mk l)

/-- Models JavaScript string prefix test `s.startsWith(p)` by a structural
character-list comparison. -/
def strStartsWith (s p : String) : Bool :=
  p.toList.isPrefixOf s.toList

/-- Models Node `path.extname`: the suffix of the basename from its last dot,
empty when the basename has no dot or only a leading dot. -/
def extname (s : String) : String :=
  let base := (s.toList.reverse.takeWhile (fun c => c ≠ '/')).reverse
  let revBase := base.reverse
  let extRev := revBase.takeWhile (fun c => c ≠ '.')
  if extRev.length = revBase.length then ""
  else if extRev.length + 1 = revBase.length then ""
  else String.mk ('.' :: extRev.reverse)

/-- The error taxonomy surfaced by the service: `payloadTooLarge` and
`unsupportedType` are the two `BadRequestException`s of upload validation,
`notFound` is `NotFoundException`, `storageBackendError` is the
`InternalServerErrorException` of a failed ingestion. -/
inductive StorageError where
  | payloadTooLarge
  | unsupportedType
  | notFound
  | storageBackendError
deriving DecidableEq

/-- The `DEFAULT_ALLOWED_MIME_TYPES` constant of storage.service.ts. -/
def DEFAULT_ALLOWED_MIME_TYPES : List String :=
  [ "image/jpeg", "image/png", "image/gif", "image/webp", "image/svg+xml",
    "application/pdf", "application/msword",
    "application/vnd.openxmlformats-officedocument.wordprocessingml.document",
    "application/vnd.ms-excel",
    "application/vnd.openxmlformats-officedocument.spreadsheetml.sheet",
    "application/vnd.ms-powerpoint",
    "application/vnd.openxmlformats-officedocument.presentationml.presentation",
    "text/plain", "text/csv" ]

/-- The raw configuration variables read by the constructor.  String-valued
variables are `Option String` (`none` = unset); numeric ones are carried
already parsed. -/
structure EnvConfig where
  uploadPathVar : Option String
  maxFileSizeVal : Option Nat
  allowedMimeTypesVar : Option String
  thumbnailWidthVal : Option Nat
  thumbnailHeightVal : Option Nat
  thumbnailQualityVal : Option Nat
deriving DecidableEq

/-- The immutable configuration the constructor installs on the service. -/
structure Config where
  uploadPath : String
  maxFileSize : Nat
  allowedMimeTypes : List String
  thumbnailWidth : Nat
  thumbnailHeight : Nat
  thumbnailQuality : Nat
deriving DecidableEq

/-- JavaScript `v || d` for a string-valued configuration read: the default
applies when the variable is unset or the empty string (falsy). -/
def jsOrString (v : Option String) (d : String) : String :=
  match v with
  | none => d
  | some s => if s.isEmpty then d else s

/-- The constructor of `StorageService` (storage.service.ts lines 58-81):
defaults for path, size and thumbnail parameters, and the MIME allow-list
taken from `ALLOWED_MIME_TYPES` (split on commas and trimmed) when that
variable is set and truthy, else `DEFAULT_ALLOWED_MIME_TYPES`. -/
def mkConfig (e : EnvConfig) : Config :=
  { uploadPath := jsOrString e.uploadPathVar "./uploads"
    maxFileSize := e.maxFileSizeVal.getD 10485760
    allowedMimeTypes :=
      match e.allowedMimeTypesVar with
      | none => DEFAULT_ALLOWED_MIME_TYPES
      | some s =>
        if s.isEmpty then DEFAULT_ALLOWED_MIME_TYPES
        else (jsSplitComma s).map String.trim
    thumbnailWidth := e.thumbnailWidthVal.getD 300
    thumbnailHeight := e.thumbnailHeightVal.getD 300
    thumbnailQuality := e.thumbnailQualityVal.getD 80 }

/-- An `Express.Multer.File` as the service reads it. -/
structure MulterFile where
  originalname : String
  mimetype : String
  size : Nat
  buffer : Content
deriving DecidableEq

/-- The `UploadFileDto` body fields. -/
structure UploadDto where
  category : String
  entityType : Option String
  entityId : Option String
  uploadedBy : Option String
  description : Option String
  metadata : Option String
deriving DecidableEq

/-- The outcome of the external effects one `uploadFile` call performs:
`uuid` is the fresh token for the stored filename, `recId` the fresh primary
key minted on insert, `now` the insertion timestamp; `writeOk`, `thumbOk`,
`saveOk` and `unlinkOk` resolve whether the blob write, the sharp thumbnail
derivation, the metadata save and the compensating unlink succeed; and
`thumbBytes` are the JPEG bytes sharp produces (never inspected by the
service). -/
structure UploadEnv where
  uuid : String
  recId : String
  now : Nat
  writeOk : Bool
  thumbOk : Bool
  saveOk : Bool
  unlinkOk : Bool
  thumbBytes : Content
deriving DecidableEq

/-- `getSubdirectoryByCategory` (storage.service.ts lines 335-346): the switch
over the category's runtime string value, with default branch "temp". -/
def getSubdirectoryByCategory (category : String) : String :=
  if category = "PROFILE" then "profiles"
  else if category = "DOCUMENT" then "documents"
  else if category = "FORM_FIELD" then "forms"
  else "temp"

/-- `generateThumbnail` (storage.service.ts lines 356-375): writes
`thumbnails/thumb_<filename>` under the upload root and returns its relative
path, or returns `none` without touching the disk when sharp fails (the JPEG
re-encoding itself is abstracted into `env.thumbBytes`). -/
def generateThumbnail (cfg : Config) (env : UploadEnv) (disk : Disk)
    (filename : String) : Option String × Disk :=
  let thumbnailFilename := "thumb_" ++ filename
  let relativePath := pathJoin "thumbnails" thumbnailFilename
  let fullPath := pathJoin cfg.uploadPath relativePath
  if env.thumbOk then (some relativePath, diskWrite disk fullPath env.thumbBytes)
  else (none, disk)

/-- `uploadFile` (storage.service.ts lines 116-183): size and MIME validation,
unique stored filename, category subdirectory, blob write, optional thumbnail,
metadata save; on any failure inside the try block, a best-effort unlink of
the just-written blob and an `InternalServerErrorException`. -/
def uploadFile (cfg : Config) (env : UploadEnv) (file : MulterFile)
    (dto : UploadDto) (st : State) : State × Except StorageError FileRecord :=
  if file.size > cfg.maxFileSize then
    (st, .error .payloadTooLarge)
  else if cfg.allowedMimeTypes.length > 0 &&
      !(cfg.allowedMimeTypes.contains file.mimetype) then
    (st, .error .unsupportedType)
  else
    let ext := extname file.originalname
    let storedFilename := env.uuid ++ ext
    let subdir := getSubdirectoryByCategory dto.category
    let relativePath := pathJoin subdir storedFilename
    let fullPath := pathJoin cfg.uploadPath relativePath
    if !env.writeOk then
      (⟨if env.unlinkOk then diskUnlink st.disk fullPath else st.disk, st.store⟩,
        .error .storageBackendError)
    else
      let disk1 := diskWrite st.disk fullPath file.buffer
      let thumbResult :=
        if strStartsWith file.mimetype "image/" then
          generateThumbnail cfg env disk1 storedFilename
        else (none, disk1)
      let thumbnailPath := thumbResult.1
      let disk2 := thumbResult.2
      if env.saveOk then
        let fm : FileRecord :=
          { id := env.recId
            originalFilename := file.originalname
            storedFilename := storedFilename
            mimetype := file.mimetype
            size := file.size
            category := dto.category
            entityType := dto.entityType
            entityId := dto.entityId
            path := relativePath
            thumbnailPath := thumbnailPath
            uploadedBy := dto.uploadedBy
            description := dto.description
            metadata := dto.metadata
            uploadedAt := env.now
            updatedAt := env.now
            active := true }
        (⟨disk2, storeSave st.store fm⟩, .ok fm)
      else
        (⟨if env.unlinkOk then diskUnlink disk2 fullPath else disk2, st.store⟩,
          .error .storageBackendError)

/-- `getFile` (storage.service.ts lines 192-209): active lookup, then blob
read; both absences surface as `notFound`.  The method performs no writes, so
it returns only its result. -/
def getFile (cfg : Config) (id : String) (st : State) :
    Except StorageError (FileRecord × Content) :=
  match findActive st.store id with
  | none => .error .notFound
  | some metadata =>
    match diskRead st.disk (pathJoin cfg.uploadPath metadata.path) with
    | some buffer => .ok (metadata, buffer)
    | none => .error .notFound

/-- `getThumbnail` (storage.service.ts lines 217-234). -/
def getThumbnail (cfg : Config) (id : String) (st : State) :
    Except StorageError (FileRecord × Content) :=
  match findActive st.store id with
  | none => .error .notFound
  | some metadata =>
    match metadata.thumbnailPath with
    | none => .error .notFound
    | some tp =>
      match diskRead st.disk (pathJoin cfg.uploadPath tp) with
      | some buffer => .ok (metadata, buffer)
      | none => .error .notFound

/-- `getFileMetadata` (storage.service.ts lines 317-327): lookup only. -/
def getFileMetadata (id : String) (st : State) : Except StorageError FileRecord :=
  match findActive st.store id with
  | none => .error .notFound
  | some metadata => .ok metadata

/-- `deleteFile` (storage.service.ts lines 242-263): soft delete — flips
`active` to false on the active record and saves it; no disk effect. -/
def deleteFile (id : String) (st : State) : State × Except StorageError Unit :=
  match findActive st.store id with
  | none => (st, .error .notFound)
  | some metadata =>
    (⟨st.disk, storeSave st.store { metadata with active := false }⟩, .ok ())

/-- Most-recent-first comparison used by `ORDER BY file.uploadedAt DESC`. -/
def recentFirst (a b : FileRecord) : Prop :=
  b.uploadedAt ≤ a.uploadedAt

instance : DecidableRel recentFirst :=
  fun a b => Nat.decLe b.uploadedAt a.uploadedAt

instance : IsTotal FileRecord recentFirst :=
  ⟨fun a b => Nat.le_total b.uploadedAt a.uploadedAt⟩

instance : IsTrans FileRecord recentFirst :=
  ⟨fun _ _ _ h1 h2 => le_trans h2 h1⟩

/-- An optional equality filter against a non-nullable column. -/
def optFilter (param : Option String) (col : String) : Bool :=
  match param with
  | none => true
  | some v => col == v

/-- An optional equality filter against a nullable column: a NULL column
matches no filter value. -/
def optFilterN (param : Option String) (col : Option String) : Bool :=
  match param with
  | none => true
  | some v => col == some v

/-- The WHERE clause `listFiles` builds: `active = true` plus the conjunction
of whichever of the four optional filters were supplied. -/
def listPred (category entityType entityId uploadedBy : Option String)
    (r : FileRecord) : Bool :=
  r.active && optFilter category r.category && optFilterN entityType r.entityType
    && optFilterN entityId r.entityId && optFilterN uploadedBy r.uploadedBy

/-- `listFiles` (storage.service.ts lines 275-309): filtered active records,
ordered by `uploadedAt` descending, paginated by `skip(offset)`/`take(limit)`;
`getManyAndCount` reports the total matching count before pagination. -/
def listFiles (category entityType entityId uploadedBy : Option String)
    (limit offset : Nat) (st : State) : List FileRecord × Nat :=
  let matched := st.store.filter (listPred category entityType entityId uploadedBy)
  let sorted := List.insertionSort recentFirst matched
  ((sorted.drop offset).take limit, matched.length)

/-- Is the blob of record `m` missing from disk? -/
def blobMissing (cfg : Config) (disk : Disk) (m : FileRecord) : Bool :=
  !(diskHas disk (pathJoin cfg.uploadPath m.path))

/-- The loop body of `cleanupOrphanedFiles`, iterating over the snapshot
returned by `repository.find()` while saving flipped records back. -/
def cleanupLoop (cfg : Config) : List FileRecord → State → Nat → State × Nat
  | [], st, removed => (st, removed)
  | m :: rest, st, removed =>
    if diskHas st.disk (pathJoin cfg.uploadPath m.path) then
      cleanupLoop cfg rest st removed
    else
      cleanupLoop cfg rest
        ⟨st.disk, storeSave st.store { m with active := false }⟩ (removed + 1)

/-- `cleanupOrphanedFiles` (storage.service.ts lines 382-399): scans every
metadata record, deactivates those whose blob is inaccessible, and counts
each such record. -/
def cleanupOrphanedFiles (cfg : Config) (st : State) : State × Nat :=
  cleanupLoop cfg st.store st 0

/-- One record-flip of the reconciliation sweep, used to characterise it. -/
def flipIfMissing (cfg : Config) (disk : Disk) (m : FileRecord) : FileRecord :=
  if blobMissing cfg disk m then { m with active := false } else m

/-- The service operations reachable through the public interface. -/
inductive StorageOp where
  | upload (env : UploadEnv) (file : MulterFile) (dto : UploadDto)
  | download (id : String)
  | thumb (id : String)
  | meta (id : String)
  | list (category entityType entityId uploadedBy : Option String)
      (limit offset : Nat)
  | softDelete (id : String)
  | cleanup
deriving DecidableEq

/-- The state transition each operation performs (the read-only methods
`getFile`, `getThumbnail`, `getFileMetadata`, `listFiles` perform no
writes). -/
def applyOp (cfg : Config) (op : StorageOp) (st : State) : State :=
  match op with
  | .upload env file dto => (uploadFile cfg env file dto st).1
  | .download _ => st
  | .thumb _ => st
  | .meta _ => st
  | .list _ _ _ _ _ _ => st
  | .softDelete id => (deleteFile id st).1
  | .cleanup => (cleanupOrphanedFiles cfg st).1

/-- Freshness of the UUIDs an operation consumes: an upload's minted primary
key does not collide with an existing row (`uuidv4` collision-freedom). -/
def opFresh (op : StorageOp) (st : State) : Prop :=
  match op with
  | .upload env _ _ => env.recId ∉ st.store.map FileRecord.id
  | _ => True

instance {ε α : Type} [DecidableEq ε] [DecidableEq α] :
    DecidableEq (Except ε α) := fun x y =>
  match x, y with
  | .ok a, .ok b =>
    if h : a = b then .isTrue (by rw [h]) else .isFalse (by simp [h])
  | .ok _, .error _ => .isFalse (by simp)
  | .error _, .ok _ => .isFalse (by simp)
  | .error a, .error b =>
    if h : a = b then .isTrue (by rw [h]) else .isFalse (by simp [h])

/-! Basic lemmas about the disk model. -/

@[simp] theorem diskHas_nil (p : String) : diskHas [] p = false := rfl

@[simp] theorem diskHas_cons (e : String × Content) (d : Disk) (p : String) :
    diskHas (e :: d) p = (e.1 == p || diskHas d p) := rfl

theorem diskHas_diskUnlink_self (d : Disk) (p : String) :
    diskHas (diskUnlink d p) p = false := by
  induction d with
  | nil => rfl
  | cons e t ih =>
    simp only [diskUnlink, List.filter_cons] at ih ⊢
    by_cases hp : e.1 = p
    · simp [hp, ih]
    · simp [bne_iff_ne, hp, ih]

theorem diskHas_diskUnlink_of_ne (d : Disk) (p q : String) (h : q ≠ p) :
    diskHas (diskUnlink d p) q = diskHas d q := by
  induction d with
  | nil => rfl
  | cons e t ih =>
    simp only [diskUnlink] at ih ⊢
    by_cases hp : e.1 = p
    · have hq : (e.1 == q) = false := by
        rw [beq_eq_false_iff_ne, hp]
        exact fun hqq => h hqq.symm
      rw [List.filter_cons_of_neg (by simp [bne, hp]), ih, diskHas_cons, hq,
        Bool.false_or]
    · rw [List.filter_cons_of_pos (by simp [bne_iff_ne, hp]), diskHas_cons,
        diskHas_cons, ih]

theorem diskHas_diskWrite_self (d : Disk) (p : String) (c : Content) :
    diskHas (diskWrite d p c) p = true := by
  simp [diskWrite]

theorem diskHas_diskWrite_of_ne (d : Disk) (p q : String) (c : Content)
    (h : q ≠ p) : diskHas (diskWrite d p c) q = diskHas d q := by
  have hq : (p == q) = false := by
    rw [beq_eq_false_iff_ne]
    exact fun hqq => h hqq.symm
  have hu := diskHas_diskUnlink_of_ne d p q h
  simp only [diskWrite, diskHas_cons, hq, Bool.false_or]
  simpa [diskUnlink] using hu

/-! Basic lemmas about the row-save model. -/

theorem mem_storeSave {s : List FileRecord} {x r : FileRecord}
    (h : r ∈ storeSave s x) : r = x ∨ r ∈ s := by
  induction s with
  | nil => simpa [storeSave] using h
  | cons m t ih =>
    by_cases hid : m.id = x.id
    · simp [storeSave, hid] at h
      rcases h with h | h
      · exact Or.inl h
      · exact Or.inr (List.mem_cons_of_mem _ h)
    · simp [storeSave, hid] at h
      rcases h with h | h
      · exact Or.inr (by simp [h])
      · rcases ih h with h' | h'
        · exact Or.inl h'
        · exact Or.inr (List.mem_cons_of_mem _ h')

theorem mem_storeSave_self {s : List FileRecord} (x : FileRecord) :
    x ∈ storeSave s x := by
  induction s with
  | nil => simp [storeSave]
  | cons m t ih =>
    by_cases hid : m.id = x.id
    · simp [storeSave, hid]
    · simp [storeSave, hid]
      exact Or.inr ih

theorem mem_storeSave_of_ne_id {s : List FileRecord} {x r : FileRecord}
    (hr : r ∈ s) (hne : r.id ≠ x.id) : r ∈ storeSave s x := by
  induction s with
  | nil => cases hr
  | cons m t ih =>
    by_cases hid : m.id = x.id
    · simp [storeSave, hid]
      rcases List.mem_cons.mp hr with h | h
      · exact absurd (h ▸ hid) hne
      · exact Or.inr h
    · simp [storeSave, hid]
      rcases List.mem_cons.mp hr with h | h
      · exact Or.inl h
      · exact Or.inr (ih h)

theorem map_id_storeSave {s : List FileRecord} {x : FileRecord}
    (h : x.id ∈ s.map FileRecord.id) :
    (storeSave s x).map FileRecord.id = s.map FileRecord.id := by
  induction s with
  | nil => simp at h
  | cons m t ih =>
    by_cases hid : m.id = x.id
    · simp [storeSave, hid]
    · rw [List.map_cons, List.mem_cons] at h
      rcases h with h | h
      · exact absurd h.symm hid
      · simp [storeSave, hid, ih h]

theorem storeSave_fresh {s : List FileRecord} {x : FileRecord}
    (h : x.id ∉ s.map FileRecord.id) : storeSave s x = s ++ [x] := by
  induction s with
  | nil => rfl
  | cons m t ih =>
    rw [List.map_cons, List.mem_cons] at h
    push_neg at h
    have hm : m.id ≠ x.id := fun hh => h.1 hh.symm
    simp [storeSave, hm, ih h.2]

theorem storeSave_eq_map {s : List FileRecord} {x m : FileRecord}
    (hnd : (s.map FileRecord.id).Nodup) (hm : m ∈ s) (hid : m.id = x.id) :
    storeSave s x = s.map (fun r => if r.id = x.id then x else r) := by
  induction s with
  | nil => cases hm
  | cons h t ih =>
    rw [List.map_cons] at hnd
    have hnd1 := (List.nodup_cons.mp hnd).1
    have hnd2 := (List.nodup_cons.mp hnd).2
    by_cases hh : h.id = x.id
    · have ht : ∀ r ∈ t, r.id ≠ x.id := by
        intro r hr hrx
        have hmem : r.id ∈ t.map FileRecord.id := List.mem_map_of_mem _ hr
        rw [hrx, ← hh] at hmem
        exact hnd1 hmem
      have htt : t.map (fun r => if r.id = x.id then x else r) = t := by
        conv_rhs => rw [← List.map_id t]
        apply List.map_congr_left
        intro r hr
        simp [ht r hr]
      simp [storeSave, hh, htt]
    · have hmt : m ∈ t := by
        rcases List.mem_cons.mp hm with h' | h'
        · exact absurd (by rw [← h']; exact hid) hh
        · exact h'
      simp [storeSave, hh, ih hnd2 hmt]

/-! Properties of one reconciliation flip. -/

theorem flipIfMissing_id (cfg : Config) (d : Disk) (m : FileRecord) :
    (flipIfMissing cfg d m).id = m.id := by
  rw [flipIfMissing]
  split <;> rfl

theorem flipIfMissing_path (cfg : Config) (d : Disk) (m : FileRecord) :
    (flipIfMissing cfg d m).path = m.path := by
  rw [flipIfMissing]
  split <;> rfl

theorem flipIfMissing_of_not_missing (cfg : Config) (d : Disk) (m : FileRecord)
    (h : blobMissing cfg d m = false) : flipIfMissing cfg d m = m := by
  simp [flipIfMissing, h]

theorem flipIfMissing_active_of_missing (cfg : Config) (d : Disk)
    (m : FileRecord) (h : blobMissing cfg d m = true) :
    (flipIfMissing cfg d m).active = false := by
  simp [flipIfMissing, h]

theorem flipIfMissing_active_of_inactive (cfg : Config) (d : Disk)
    (m : FileRecord) (h : m.active = false) :
    (flipIfMissing cfg d m).active = false := by
  rw [flipIfMissing]
  split
  · rfl
  · exact h

theorem blobMissing_flipIfMissing (cfg : Config) (d : Disk) (m : FileRecord) :
    blobMissing cfg d (flipIfMissing cfg d m) = blobMissing cfg d m := by
  rw [blobMissing, blobMissing, flipIfMissing_path]

theorem flipIfMissing_idem (cfg : Config) (d : Disk) (m : FileRecord) :
    flipIfMissing cfg d (flipIfMissing cfg d m) = flipIfMissing cfg d m := by
  by_cases h : blobMissing cfg d m = true
  · rw [flipIfMissing]
    rw [blobMissing_flipIfMissing, if_pos h]
    simp [flipIfMissing, h]
  · rw [Bool.not_eq_true] at h
    rw [flipIfMissing_of_not_missing cfg d m h, flipIfMissing_of_not_missing cfg d m h]

theorem flipIfMissing_of_eq_false (cfg : Config) (d : Disk) (m : FileRecord)
    (h : m.active = false) :
    flipIfMissing cfg d m = m := by
  rw [flipIfMissing]
  split
  · cases m
    simp_all
  · rfl

/-- The reconciliation loop, characterised: starting from a store `s` whose
ids are distinct and running over a snapshot `l` of rows of `s` (also with
distinct ids), the loop flips every missing-blob snapshot row in place and
counts every missing-blob snapshot row. -/
theorem cleanupLoop_eq (cfg : Config) (l : List FileRecord) (disk : Disk)
    (s : List FileRecord) (n : Nat)
    (hndl : (l.map FileRecord.id).Nodup)
    (hnds : (s.map FileRecord.id).Nodup)
    (hls : ∀ m ∈ l, m ∈ s) :
    cleanupLoop cfg l ⟨disk, s⟩ n =
      (⟨disk, s.map (fun r => if r ∈ l then flipIfMissing cfg disk r else r)⟩,
        n + l.countP (blobMissing cfg disk)) := by
  induction l generalizing s n with
  | nil =>
    rw [cleanupLoop, List.countP_nil, Nat.add_zero]
    have hmap : s.map (fun r => if r ∈ ([] : List FileRecord)
        then flipIfMissing cfg disk r else r) = s := by
      conv_rhs => rw [← List.map_id s]
      apply List.map_congr_left
      intro r _
      simp
    rw [hmap]
  | cons m rest ih =>
    rw [List.map_cons] at hndl
    have hnd1 := (List.nodup_cons.mp hndl).1
    have hnd2 := (List.nodup_cons.mp hndl).2
    have hms : m ∈ s := hls m (List.mem_cons_self m rest)
    have hrest : ∀ r ∈ rest, r.id ≠ m.id := by
      intro r hr hrm
      exact hnd1 (hrm ▸ List.mem_map_of_mem FileRecord.id hr)
    rw [cleanupLoop]
    by_cases hmiss : diskHas disk (pathJoin cfg.uploadPath m.path) = true
    · have hbm : blobMissing cfg disk m = false := by
        simp [blobMissing, hmiss]
      rw [if_pos hmiss]
      rw [ih s n hnd2 hnds (fun r hr => hls r (List.mem_cons_of_mem m hr))]
      rw [List.countP_cons, hbm]
      have hmap : s.map (fun r => if r ∈ rest then flipIfMissing cfg disk r else r)
          = s.map (fun r => if r ∈ m :: rest then flipIfMissing cfg disk r else r) := by
        apply List.map_congr_left
        intro r hr
        by_cases hrm : r = m
        · subst hrm
          rw [flipIfMissing_of_not_missing cfg disk r hbm]
          simp
        · simp [List.mem_cons, hrm]
      rw [hmap]
      simp
    · have hbm : blobMissing cfg disk m = true := by
        simp [blobMissing, hmiss]
      rw [if_neg hmiss]
      generalize hm' : ({ m with active := false } : FileRecord) = m'
      have hm'id : m'.id = m.id := by rw [← hm']
      have hflipm : flipIfMissing cfg disk m = m' := by
        rw [flipIfMissing, if_pos hbm, hm']
      have hsave : storeSave s m' = s.map (fun r => if r.id = m'.id then m' else r) :=
        storeSave_eq_map hnds hms hm'id.symm
      have hmem' : m'.id ∈ s.map FileRecord.id := by
        rw [hm'id]
        exact List.mem_map_of_mem FileRecord.id hms
      have hids : (storeSave s m').map FileRecord.id = s.map FileRecord.id :=
        map_id_storeSave hmem'
      have hls' : ∀ r ∈ rest, r ∈ storeSave s m' := by
        intro r hr
        refine mem_storeSave_of_ne_id (hls r (List.mem_cons_of_mem m hr)) ?_
        rw [hm'id]
        exact hrest r hr
      rw [ih (storeSave s m') (n + 1) hnd2 (hids.symm ▸ hnds) hls']
      rw [List.countP_cons, hbm, if_pos rfl]
      have hmap : (storeSave s m').map
            (fun r => if r ∈ rest then flipIfMissing cfg disk r else r)
          = s.map (fun r => if r ∈ m :: rest then flipIfMissing cfg disk r else r) := by
        rw [hsave, List.map_map]
        apply List.map_congr_left
        intro r hr
        simp only [Function.comp_apply]
        by_cases hrid : r.id = m'.id
        · have hrm : r = m :=
            List.inj_on_of_nodup_map hnds hr hms (by rw [hrid, hm'id])
          rw [if_pos hrid, hrm, if_pos (List.mem_cons_self m rest), hflipm]
          by_cases hm'rest : m' ∈ rest
          · rw [if_pos hm'rest, ← hflipm]
            exact flipIfMissing_idem cfg disk m
          · rw [if_neg hm'rest]
        · rw [if_neg hrid]
          have hrm : r ≠ m := fun h => hrid (by rw [h, hm'id])
          by_cases hrr : r ∈ rest
          · rw [if_pos hrr, if_pos (List.mem_cons_of_mem m hrr)]
          · rw [if_neg hrr, if_neg (by simp [List.mem_cons, hrm, hrr])]
      rw [hmap]
      have harith : n + 1 + List.countP (blobMissing cfg disk) rest
          = n + (List.countP (blobMissing cfg disk) rest + 1) := by omega
      rw [harith]

/-- `cleanupOrphanedFiles`, characterised: on a store with distinct ids it
flips every missing-blob row in place, leaves the disk alone, and returns the
count of all missing-blob rows (whether or not they were still active). -/
theorem cleanupOrphanedFiles_eq (cfg : Config) (st : State)
    (hnd : (st.store.map FileRecord.id).Nodup) :
    cleanupOrphanedFiles cfg st =
      (⟨st.disk, st.store.map (flipIfMissing cfg st.disk)⟩,
        st.store.countP (blobMissing cfg st.disk)) := by
  rw [cleanupOrphanedFiles]
  rw [cleanupLoop_eq cfg st.store st.disk st.store 0 hnd hnd (fun _ hm => hm)]
  rw [Nat.zero_add]
  have hmap : st.store.map
        (fun r => if r ∈ st.store then flipIfMissing cfg st.disk r else r)
      = st.store.map (flipIfMissing cfg st.disk) := by
    apply List.map_congr_left
    intro r hr
    rw [if_pos hr]
  rw [hmap]

/-- Inversion of a successful upload: both validations passed, the blob write
and the metadata save succeeded, and the returned record is exactly the one
the service builds from the request and its environment. -/
theorem uploadFile_ok_inversion (cfg : Config) (env : UploadEnv)
    (file : MulterFile) (dto : UploadDto) (st st' : State) (fm : FileRecord)
    (h : uploadFile cfg env file dto st = (st', .ok fm)) :
    env.writeOk = true ∧ env.saveOk = true ∧
    ¬ file.size > cfg.maxFileSize ∧
    (cfg.allowedMimeTypes.length > 0 &&
      !(cfg.allowedMimeTypes.contains file.mimetype)) = false ∧
    fm.id = env.recId ∧
    fm.originalFilename = file.originalname ∧
    fm.storedFilename = env.uuid ++ extname file.originalname ∧
    fm.mimetype = file.mimetype ∧
    fm.size = file.size ∧
    fm.category = dto.category ∧
    fm.path = pathJoin (getSubdirectoryByCategory dto.category)
      (env.uuid ++ extname file.originalname) ∧
    fm.thumbnailPath = (if strStartsWith file.mimetype "image/" = true then
        (if env.thumbOk = true then
          some (pathJoin "thumbnails"
            ("thumb_" ++ (env.uuid ++ extname file.originalname)))
         else none)
      else none) ∧
    fm.uploadedAt = env.now ∧
    fm.active = true ∧
    st'.store = storeSave st.store fm := by
  by_cases h1 : file.size > cfg.maxFileSize
  · rw [uploadFile, if_pos h1] at h
    exact absurd (congrArg Prod.snd h) (by simp)
  by_cases h2 : (cfg.allowedMimeTypes.length > 0 &&
      !(cfg.allowedMimeTypes.contains file.mimetype)) = true
  · rw [uploadFile, if_neg h1, if_pos h2] at h
    exact absurd (congrArg Prod.snd h) (by simp)
  simp only [uploadFile] at h
  rw [if_neg h1, if_neg h2] at h
  by_cases h3 : env.writeOk = true
  case neg =>
    rw [Bool.not_eq_true] at h3
    rw [h3] at h
    simp only [Bool.not_false, if_true] at h
    exact absurd (congrArg Prod.snd h) (by simp)
  rw [h3] at h
  simp only [Bool.not_true, Bool.false_eq_true, if_false] at h
  by_cases h4 : env.saveOk = true
  case neg =>
    rw [Bool.not_eq_true] at h4
    rw [h4] at h
    simp only [Bool.false_eq_true, if_false] at h
    exact absurd (congrArg Prod.snd h) (by simp)
  rw [h4] at h
  simp only [eq_self_iff_true, if_true] at h
  have hst := congrArg Prod.fst h
  have hfm' := congrArg Prod.snd h
  simp only at hst hfm'
  have hfm : _ = fm := Except.ok.inj hfm'
  refine ⟨h3, h4, h1, Bool.not_eq_true _ ▸ h2, ?_, ?_, ?_, ?_, ?_, ?_, ?_, ?_,
    ?_, ?_, ?_⟩
  · rw [← hfm]
  · rw [← hfm]
  · rw [← hfm]
  · rw [← hfm]
  · rw [← hfm]
  · rw [← hfm]
  · rw [← hfm]
  · rw [← hfm]
    by_cases hi : strStartsWith file.mimetype "image/" = true <;>
      by_cases ht : env.thumbOk = true <;>
      simp [generateThumbnail, hi, ht]
  · rw [← hfm]
  · rw [← hfm]
  · rw [← hst, ← hfm]

/-- Every row in the store after an upload attempt was already there or
carries the freshly minted id. -/
theorem uploadFile_store_mem (cfg : Config) (env : UploadEnv)
    (file : MulterFile) (dto : UploadDto) (st : State) :
    ∀ r' ∈ (uploadFile cfg env file dto st).1.store,
      r' ∈ st.store ∨ r'.id = env.recId := by
  intro r' hr'
  simp only [uploadFile] at hr'
  split at hr'
  · exact Or.inl hr'
  split at hr'
  · exact Or.inl hr'
  split at hr'
  · exact Or.inl hr'
  split at hr'
  · rcases mem_storeSave hr' with h | h
    · exact Or.inr (by rw [h])
    · exact Or.inl h
  · exact Or.inl hr'

/-- Rows of a save-updated store, on a store with distinct ids: each row is
the saved row, or an untouched row with a different id. -/
theorem mem_storeSave_nodup {s : List FileRecord} {x m r : FileRecord}
    (hnd : (s.map FileRecord.id).Nodup) (hm : m ∈ s) (hid : m.id = x.id)
    (hr : r ∈ storeSave s x) : r = x ∨ (r ∈ s ∧ r.id ≠ x.id) := by
  rw [storeSave_eq_map hnd hm hid] at hr
  obtain ⟨r₀, hr₀, hr₀eq⟩ := List.mem_map.mp hr
  by_cases h0 : r₀.id = x.id
  · rw [if_pos h0] at hr₀eq
    exact Or.inl hr₀eq.symm
  · rw [if_neg h0] at hr₀eq
    exact Or.inr ⟨hr₀eq ▸ hr₀, hr₀eq ▸ h0⟩

/-- JavaScript `split` never returns an empty array. -/
theorem splitCommaChars_ne_nil (l : List Char) : splitCommaChars l ≠ [] := by
  induction l with
  | nil => exact fun h => List.noConfusion h
  | cons c cs ih =>
    by_cases hc : c = ','
    · simp [splitCommaChars, hc]
    · rw [splitCommaChars, if_neg hc]
      cases h : splitCommaChars cs with
      | nil => exact absurd h ih
      | cons a b => simp

/-- The effective MIME allow-list the constructor installs is never empty:
either the non-empty built-in default, or the comma-split of a non-empty
configuration string (which always has at least one field). -/
theorem mkConfig_allowed_ne_nil (e : EnvConfig) :
    (mkConfig e).allowedMimeTypes ≠ [] := by
  simp only [mkConfig]
  cases hv : e.allowedMimeTypesVar with
  | none => simp [DEFAULT_ALLOWED_MIME_TYPES]
  | some s =>
    by_cases hs : s.isEmpty = true
    · simp [hs, DEFAULT_ALLOWED_MIME_TYPES]
    · simp only [hs, Bool.false_eq_true, if_false]
      rw [Ne, List.map_eq_nil_iff, jsSplitComma, List.map_eq_nil_iff]
      exact splitCommaChars_ne_nil s.toList

/-- Oversized uploads are rejected before any effect. -/
theorem uploadFile_size_reject (cfg : Config) (env : UploadEnv)
    (file : MulterFile) (dto : UploadDto) (st : State)
    (h1 : file.size > cfg.maxFileSize) :
    uploadFile cfg env file dto st = (st, .error .payloadTooLarge) := by
  rw [uploadFile, if_pos h1]

/-- Uploads with a mimetype outside a non-empty allow-list are rejected
before any effect. -/
theorem uploadFile_mime_reject (cfg : Config) (env : UploadEnv)
    (file : MulterFile) (dto : UploadDto) (st : State)
    (hne : cfg.allowedMimeTypes ≠ [])
    (h1 : ¬ file.size > cfg.maxFileSize)
    (h2 : cfg.allowedMimeTypes.contains file.mimetype = false) :
    uploadFile cfg env file dto st = (st, .error .unsupportedType) := by
  have hlen : decide (cfg.allowedMimeTypes.length > 0) = true :=
    decide_eq_true (List.length_pos.mpr hne)
  rw [uploadFile, if_neg h1, if_pos (by rw [h2, hlen]; rfl)]

/-- The category subdirectory name is always at most 9 characters long. -/
theorem getSubdirectoryByCategory_length_le (c : String) :
    (getSubdirectoryByCategory c).length ≤ 9 := by
  rw [getSubdirectoryByCategory]
  split
  · decide
  split
  · decide
  split
  · decide
  · decide

/-- The thumbnail's absolute path never coincides with the blob's absolute
path (the fixed "thumbnails/thumb_" prefix is longer than any category
subdirectory plus its separator). -/
theorem thumbFull_ne_blobFull (cfg : Config) (c sf : String) :
    pathJoin cfg.uploadPath (pathJoin "thumbnails" ("thumb_" ++ sf))
      ≠ pathJoin cfg.uploadPath (pathJoin (getSubdirectoryByCategory c) sf) := by
  intro hcontra
  have hlen := congrArg String.length hcontra
  have h10 : ("thumbnails" : String).length = 10 := rfl
  have h6 : ("thumb_" : String).length = 6 := rfl
  have hsl : ("/" : String).length = 1 := rfl
  have hsub := getSubdirectoryByCategory_length_le c
  simp only [pathJoin, String.length_append, h10, h6, hsl] at hlen
  omega

/-- C2: upload validation is atomic — under any constructor-built
configuration, an upload whose size exceeds the configured maximum fails
with `payloadTooLarge`, and an upload whose mimetype is outside the effective
allow-list fails with `unsupportedType`; in both cases the returned state is
exactly the input state, so nothing was written to disk and nothing was
inserted into the metadata store. -/
theorem upload_validation_atomic (e : EnvConfig) (env : UploadEnv)
    (file : MulterFile) (dto : UploadDto) (st : State) :
    (file.size > (mkConfig e).maxFileSize →
      uploadFile (mkConfig e) env file dto st = (st, .error .payloadTooLarge)) ∧
    (¬ file.size > (mkConfig e).maxFileSize →
      (mkConfig e).allowedMimeTypes.contains file.mimetype = false →
      uploadFile (mkConfig e) env file dto st = (st, .error .unsupportedType)) :=
  ⟨fun h1 => uploadFile_size_reject (mkConfig e) env file dto st h1,
   fun h1 h2 => uploadFile_mime_reject (mkConfig e) env file dto st
     (mkConfig_allowed_ne_nil e) h1 h2⟩

/-- C3: when the blob write succeeded but the metadata save fails, the whole
upload fails with `storageBackendError`, no record is inserted, and the
just-written blob is unlinked best-effort — the surfaced error is
`storageBackendError` whether or not the compensating unlink itself
succeeds, and when it succeeds the blob is gone from disk. -/
theorem upload_compensating_cleanup (cfg : Config) (env : UploadEnv)
    (file : MulterFile) (dto : UploadDto) (st : State)
    (hsize : ¬ file.size > cfg.maxFileSize)
    (hmime : (decide (cfg.allowedMimeTypes.length > 0) &&
      !(cfg.allowedMimeTypes.contains file.mimetype)) = false)
    (hw : env.writeOk = true) (hs : env.saveOk = false) :
    (uploadFile cfg env file dto st).2 = .error .storageBackendError ∧
    (uploadFile cfg env file dto st).1.store = st.store ∧
    (env.unlinkOk = true →
      diskHas (uploadFile cfg env file dto st).1.disk
        (pathJoin cfg.uploadPath
          (pathJoin (getSubdirectoryByCategory dto.category)
            (env.uuid ++ extname file.originalname))) = false) := by
  simp only [uploadFile]
  rw [if_neg hsize, if_neg (by rw [hmime]; exact Bool.false_ne_true), if_neg (by simp [hw]),
    if_neg (by simp [hs])]
  refine ⟨rfl, rfl, fun hu => ?_⟩
  rw [if_pos hu]
  exact diskHas_diskUnlink_self _ _

/-- C4: the effective MIME allow-list is always a non-empty closed set — the
built-in default list is used when no `ALLOWED_MIME_TYPES` configuration is
supplied — and every upload whose mimetype is outside the effective list is
rejected with `unsupportedType`, so absence of configuration never disables
mimetype validation. -/
theorem mime_allowlist_always_enforced (e : EnvConfig) (env : UploadEnv)
    (file : MulterFile) (dto : UploadDto) (st : State) :
    (mkConfig e).allowedMimeTypes ≠ [] ∧
    (e.allowedMimeTypesVar = none →
      (mkConfig e).allowedMimeTypes = DEFAULT_ALLOWED_MIME_TYPES) ∧
    (¬ file.size > (mkConfig e).maxFileSize →
      (mkConfig e).allowedMimeTypes.contains file.mimetype = false →
      uploadFile (mkConfig e) env file dto st = (st, .error .unsupportedType)) :=
  ⟨mkConfig_allowed_ne_nil e,
   fun hv => by simp [mkConfig, hv],
   fun h1 h2 => uploadFile_mime_reject (mkConfig e) env file dto st
     (mkConfig_allowed_ne_nil e) h1 h2⟩

/-- C10: when an image upload wrote both the blob and the thumbnail and the
metadata save then fails, the compensating unlink removes only the primary
blob: the upload fails with `storageBackendError`, no record is inserted,
the blob is gone, and the already-written thumbnail file survives on disk. -/
theorem orphaned_thumbnail_survives (cfg : Config) (env : UploadEnv)
    (file : MulterFile) (dto : UploadDto) (st : State)
    (hsize : ¬ file.size > cfg.maxFileSize)
    (hmime : (decide (cfg.allowedMimeTypes.length > 0) &&
      !(cfg.allowedMimeTypes.contains file.mimetype)) = false)
    (himg : strStartsWith file.mimetype "image/" = true)
    (hth : env.thumbOk = true)
    (hw : env.writeOk = true) (hs : env.saveOk = false)
    (hu : env.unlinkOk = true) :
    (uploadFile cfg env file dto st).2 = .error .storageBackendError ∧
    (uploadFile cfg env file dto st).1.store = st.store ∧
    diskHas (uploadFile cfg env file dto st).1.disk
      (pathJoin cfg.uploadPath
        (pathJoin (getSubdirectoryByCategory dto.category)
          (env.uuid ++ extname file.originalname))) = false ∧
    diskHas (uploadFile cfg env file dto st).1.disk
      (pathJoin cfg.uploadPath
        (pathJoin "thumbnails"
          ("thumb_" ++ (env.uuid ++ extname file.originalname)))) = true := by
  simp only [uploadFile, generateThumbnail]
  rw [if_neg hsize, if_neg (by rw [hmime]; exact Bool.false_ne_true), if_neg (by simp [hw]),
    if_pos himg, if_pos hth, if_neg (by simp [hs]), if_pos hu]
  refine ⟨rfl, rfl, diskHas_diskUnlink_self _ _, ?_⟩
  rw [diskHas_diskUnlink_of_ne _ _ _
    (thumbFull_ne_blobFull cfg dto.category (env.uuid ++ extname file.originalname))]
  exact diskHas_diskWrite_self _ _ _

/-- C5 (amended): for every successful upload, the returned record's
`thumbnailPath` is non-null exactly when the mimetype begins with "image/"
and thumbnail derivation succeeded; a non-image upload always yields
`thumbnailPath = none`, and an image upload whose derivation failed still
succeeds, with `thumbnailPath = none`. -/
theorem thumbnailPath_presence (cfg : Config) (env : UploadEnv)
    (file : MulterFile) (dto : UploadDto) (st st' : State) (fm : FileRecord)
    (h : uploadFile cfg env file dto st = (st', .ok fm)) :
    (strStartsWith file.mimetype "image/" = true → env.thumbOk = true →
      fm.thumbnailPath = some (pathJoin "thumbnails"
        ("thumb_" ++ (env.uuid ++ extname file.originalname)))) ∧
    (strStartsWith file.mimetype "image/" = false →
      fm.thumbnailPath = none) ∧
    (strStartsWith file.mimetype "image/" = true → env.thumbOk = false →
      fm.thumbnailPath = none) := by
  obtain ⟨-, -, -, -, -, -, -, -, -, -, -, hthumb, -, -, -⟩ :=
    uploadFile_ok_inversion cfg env file dto st st' fm h
  refine ⟨fun hi ht => ?_, fun hi => ?_, fun hi ht => ?_⟩
  · rw [hthumb, if_pos hi, if_pos ht]
  · rw [hthumb, if_neg (by rw [hi]; exact Bool.false_ne_true)]
  · rw [hthumb, if_pos hi, if_neg (by rw [ht]; exact Bool.false_ne_true)]

/-- C8: the returned record of every successful upload has
`storedFilename = <fresh token> ++ <extension of the original name>` and
`path = <category subdirectory>/<storedFilename>`, and the category mapping
is total: PROFILE, DOCUMENT and FORM_FIELD map to their directories and every
other string (ATTACHMENT, OTHER or unrecognized) maps to "temp". -/
theorem path_derivation (cfg : Config) (env : UploadEnv)
    (file : MulterFile) (dto : UploadDto) (st st' : State) (fm : FileRecord)
    (h : uploadFile cfg env file dto st = (st', .ok fm)) :
    fm.storedFilename = env.uuid ++ extname file.originalname ∧
    fm.category = dto.category ∧
    fm.path = pathJoin (getSubdirectoryByCategory fm.category)
      fm.storedFilename ∧
    getSubdirectoryByCategory "PROFILE" = "profiles" ∧
    getSubdirectoryByCategory "DOCUMENT" = "documents" ∧
    getSubdirectoryByCategory "FORM_FIELD" = "forms" ∧
    (∀ c : String, c ≠ "PROFILE" → c ≠ "DOCUMENT" → c ≠ "FORM_FIELD" →
      getSubdirectoryByCategory c = "temp") := by
  obtain ⟨-, -, -, -, -, -, hsf, -, -, hcat, hpath, -, -, -, -⟩ :=
    uploadFile_ok_inversion cfg env file dto st st' fm h
  refine ⟨hsf, hcat, ?_, rfl, rfl, rfl, ?_⟩
  · rw [hpath, hcat, hsf]
  · intro c h1 h2 h3
    rw [getSubdirectoryByCategory, if_neg h1, if_neg h2, if_neg h3]

/-- C6: `deleteFile(id)` fails with `notFound` exactly when no active record
with that id exists; otherwise it flips that record's `active` flag to false
and persists it, after which `getFile`, `getThumbnail`, `getFileMetadata` and
`listFiles` no longer surface the record, while the disk — and hence the blob
file — is left untouched. -/
theorem deleteFile_soft_delete (id : String) (st : State)
    (hnd : (st.store.map FileRecord.id).Nodup) :
    ((deleteFile id st).2 = .error .notFound ↔
      ∀ r ∈ st.store, r.id = id → r.active = false) ∧
    (∀ m ∈ st.store, m.id = id → m.active = true →
      (deleteFile id st).2 = .ok () ∧
      (deleteFile id st).1.disk = st.disk ∧
      ({ m with active := false } : FileRecord) ∈ (deleteFile id st).1.store ∧
      (∀ cfg, getFile cfg id (deleteFile id st).1 = .error .notFound) ∧
      (∀ cfg, getThumbnail cfg id (deleteFile id st).1 = .error .notFound) ∧
      getFileMetadata id (deleteFile id st).1 = .error .notFound ∧
      (∀ c e i u limit offset,
        ∀ r ∈ (listFiles c e i u limit offset (deleteFile id st).1).1,
          r.id ≠ id)) := by
  constructor
  · cases hfa : findActive st.store id with
    | none =>
      simp only [deleteFile, hfa]
      rw [findActive, List.find?_eq_none] at hfa
      refine ⟨fun _ r hr hrid => ?_, fun _ => trivial⟩
      have hb : (r.id == id) = true := beq_iff_eq.mpr hrid
      have := hfa r hr
      simpa [hb] using this
    | some m' =>
      simp only [deleteFile, hfa]
      have hpred := List.find?_some hfa
      simp only [Bool.and_eq_true, beq_iff_eq] at hpred
      have hmem : m' ∈ st.store := List.mem_of_find?_eq_some hfa
      constructor
      · intro habs
        exact absurd habs (by simp)
      · intro hall
        have := hall m' hmem hpred.1
        rw [this] at hpred
        exact absurd hpred.2 Bool.false_ne_true
  · intro m hm hmid hmact
    cases hfa : findActive st.store id with
    | none =>
      exfalso
      rw [findActive, List.find?_eq_none] at hfa
      exact hfa m hm (by simp [hmid, hmact])
    | some m' =>
      have hpred := List.find?_some hfa
      simp only [Bool.and_eq_true, beq_iff_eq] at hpred
      have hm'mem : m' ∈ st.store := List.mem_of_find?_eq_some hfa
      have hmm' : m' = m :=
        List.inj_on_of_nodup_map hnd hm'mem hm (by rw [hpred.1, hmid])
      subst hmm'
      have hdel : deleteFile id st =
          (⟨st.disk, storeSave st.store { m' with active := false }⟩, .ok ()) := by
        simp only [deleteFile, hfa]
      have hnone : findActive
          (storeSave st.store { m' with active := false }) id = none := by
        rw [findActive, List.find?_eq_none]
        intro r hr
        rcases @mem_storeSave_nodup st.store { m' with active := false } m' r hnd hm'mem rfl hr with h | h
        · rw [h]
          simp
        · have hb : (r.id == id) = false := by
            rw [beq_eq_false_iff_ne]
            intro hc
            exact h.2 (hc.trans hmid.symm)
          simp [hb]
      refine ⟨?_, ?_, ?_, ?_, ?_, ?_, ?_⟩
      · rw [hdel]
      · rw [hdel]
      · rw [hdel]
        exact mem_storeSave_self _
      · intro cfg
        rw [hdel]
        simp only [getFile, hnone]
      · intro cfg
        rw [hdel]
        simp only [getThumbnail, hnone]
      · rw [hdel]
        simp only [getFileMetadata, hnone]
      · intro c e i u limit offset r hr
        rw [hdel] at hr
        simp only [listFiles] at hr
        have hr1 : r ∈ List.insertionSort recentFirst
            ((storeSave st.store { m' with active := false }).filter
              (listPred c e i u)) :=
          List.mem_of_mem_drop (List.mem_of_mem_take hr)
        have hr2 := (List.perm_insertionSort recentFirst _).mem_iff.mp hr1
        have hr3 := List.mem_filter.mp hr2
        have hract : r.active = true := by
          have hp := hr3.2
          simp only [listPred, Bool.and_eq_true] at hp
          exact hp.1.1.1.1
        intro hcontra
        rcases @mem_storeSave_nodup st.store { m' with active := false } m' r hnd hm'mem rfl hr3.1 with h | h
        · rw [h] at hract
          exact absurd hract (by simp)
        · exact h.2 (hcontra.trans hmid.symm)

/-- C7: `listFiles` returns only active records satisfying the conjunction of
all supplied filters, sorted by `uploadedAt` descending, at most `limit` of
them after skipping `offset` of the sorted matches, and a total equal to the
full count of matching active records, independent of `limit` and `offset`. -/
theorem listFiles_spec (c e i u : Option String) (limit offset : Nat)
    (st : State) :
    (∀ r ∈ (listFiles c e i u limit offset st).1,
      r ∈ st.store ∧ r.active = true ∧ optFilter c r.category = true ∧
      optFilterN e r.entityType = true ∧ optFilterN i r.entityId = true ∧
      optFilterN u r.uploadedBy = true) ∧
    List.Sorted recentFirst (listFiles c e i u limit offset st).1 ∧
    (listFiles c e i u limit offset st).1.length ≤ limit ∧
    (listFiles c e i u limit offset st).1 =
      ((listFiles c e i u (offset + limit) 0 st).1).drop offset ∧
    (listFiles c e i u limit offset st).2 =
      (st.store.filter (listPred c e i u)).length ∧
    (∀ limit' offset', (listFiles c e i u limit' offset' st).2 =
      (listFiles c e i u limit offset st).2) := by
  refine ⟨?_, ?_, ?_, ?_, rfl, fun limit' offset' => rfl⟩
  · intro r hr
    simp only [listFiles] at hr
    have hr1 : r ∈ List.insertionSort recentFirst
        (st.store.filter (listPred c e i u)) :=
      List.mem_of_mem_drop (List.mem_of_mem_take hr)
    have hr2 := (List.perm_insertionSort recentFirst _).mem_iff.mp hr1
    have hr3 := List.mem_filter.mp hr2
    have hp := hr3.2
    simp only [listPred, Bool.and_eq_true] at hp
    exact ⟨hr3.1, hp.1.1.1.1, hp.1.1.1.2, hp.1.1.2, hp.1.2, hp.2⟩
  · exact List.Pairwise.sublist
      ((List.take_sublist _ _).trans (List.drop_sublist _ _))
      (List.sorted_insertionSort recentFirst _)
  · exact List.length_take_le _ _
  · simp only [listFiles]
    rw [List.drop_zero, List.take_drop]

/-- C1 (amended): one reconciliation run deactivates exactly the records
whose blob is inaccessible (records whose blob is accessible are untouched)
and returns the count of ALL records whose blob is inaccessible — including
records that were already inactive, not only the ones newly flipped.  An
immediately repeated run leaves the store unchanged (state idempotence) but
reports that same count again, not 0. -/
theorem cleanup_flips_missing_and_recounts (cfg : Config) (st : State)
    (hnd : (st.store.map FileRecord.id).Nodup) :
    (cleanupOrphanedFiles cfg st).1.disk = st.disk ∧
    (cleanupOrphanedFiles cfg st).1.store =
      st.store.map (flipIfMissing cfg st.disk) ∧
    (∀ r ∈ st.store, blobMissing cfg st.disk r = false →
      r ∈ (cleanupOrphanedFiles cfg st).1.store) ∧
    (∀ r ∈ (cleanupOrphanedFiles cfg st).1.store,
      blobMissing cfg st.disk r = true → r.active = false) ∧
    (cleanupOrphanedFiles cfg st).2 =
      st.store.countP (blobMissing cfg st.disk) ∧
    cleanupOrphanedFiles cfg (cleanupOrphanedFiles cfg st).1 =
      ((cleanupOrphanedFiles cfg st).1, (cleanupOrphanedFiles cfg st).2) := by
  have hmain := cleanupOrphanedFiles_eq cfg st hnd
  have hflipid : (FileRecord.id ∘ flipIfMissing cfg st.disk) = FileRecord.id :=
    funext (fun m => flipIfMissing_id cfg st.disk m)
  refine ⟨by rw [hmain], by rw [hmain], ?_, ?_, by rw [hmain], ?_⟩
  · intro r hr hbm
    rw [hmain]
    have hflip := flipIfMissing_of_not_missing cfg st.disk r hbm
    exact hflip ▸ List.mem_map_of_mem _ hr
  · intro r hr hbm
    rw [hmain] at hr
    obtain ⟨r₀, hr₀, hre⟩ := List.mem_map.mp hr
    have hbm0 : blobMissing cfg st.disk r₀ = true := by
      rw [← hre, blobMissing_flipIfMissing] at hbm
      exact hbm
    rw [← hre]
    exact flipIfMissing_active_of_missing cfg st.disk r₀ hbm0
  · have hnd2 : (((⟨st.disk, st.store.map (flipIfMissing cfg st.disk)⟩ :
        State)).store.map FileRecord.id).Nodup := by
      simp only [List.map_map, hflipid]
      exact hnd
    rw [hmain]
    rw [cleanupOrphanedFiles_eq cfg ⟨st.disk, st.store.map
      (flipIfMissing cfg st.disk)⟩ hnd2]
    have hstore2 : (st.store.map (flipIfMissing cfg st.disk)).map
        (flipIfMissing cfg st.disk) = st.store.map (flipIfMissing cfg st.disk) := by
      rw [List.map_map]
      exact List.map_congr_left (fun m _ => flipIfMissing_idem cfg st.disk m)
    have hcnt2 : (st.store.map (flipIfMissing cfg st.disk)).countP
        (blobMissing cfg st.disk) = st.store.countP (blobMissing cfg st.disk) := by
      rw [List.countP_map]
      exact List.countP_congr (fun m _ => by
        rw [Function.comp_apply, blobMissing_flipIfMissing])
    rw [hstore2, hcnt2]

/-- C9: deactivation is irreversible through the service interface — no
operation (upload, download, thumbnail fetch, metadata fetch, listing, soft
delete, reconciliation) ever changes a record's `active` flag from false back
to true: any record inactive before an operation is still inactive under its
id afterwards (assuming the minted upload UUID is fresh and store ids are
unique). -/
theorem active_flag_irreversible (cfg : Config) (op : StorageOp) (st : State)
    (hnd : (st.store.map FileRecord.id).Nodup) (hwf : opFresh op st)
    (r : FileRecord) (hr : r ∈ st.store) (hact : r.active = false) :
    ∀ r' ∈ (applyOp cfg op st).store, r'.id = r.id → r'.active = false := by
  intro r' hr' hid
  cases op with
  | upload env file dto =>
    rcases uploadFile_store_mem cfg env file dto st r' hr' with h | h
    · have heq : r' = r := List.inj_on_of_nodup_map hnd h hr hid
      rw [heq]
      exact hact
    · exfalso
      apply hwf
      rw [← h, hid]
      exact List.mem_map_of_mem FileRecord.id hr
  | download id =>
    have heq : r' = r := List.inj_on_of_nodup_map hnd hr' hr hid
    rw [heq]
    exact hact
  | thumb id =>
    have heq : r' = r := List.inj_on_of_nodup_map hnd hr' hr hid
    rw [heq]
    exact hact
  | meta id =>
    have heq : r' = r := List.inj_on_of_nodup_map hnd hr' hr hid
    rw [heq]
    exact hact
  | list c e i u limit offset =>
    have heq : r' = r := List.inj_on_of_nodup_map hnd hr' hr hid
    rw [heq]
    exact hact
  | softDelete id =>
    cases hfa : findActive st.store id with
    | none =>
      simp only [applyOp, deleteFile, hfa] at hr'
      have heq : r' = r := List.inj_on_of_nodup_map hnd hr' hr hid
      rw [heq]
      exact hact
    | some m =>
      simp only [applyOp, deleteFile, hfa] at hr'
      have hmmem : m ∈ st.store := List.mem_of_find?_eq_some hfa
      rcases @mem_storeSave_nodup st.store { m with active := false } m r'
          hnd hmmem rfl hr' with h | h
      · rw [h]
      · have heq : r' = r := List.inj_on_of_nodup_map hnd h.1 hr hid
        rw [heq]
        exact hact
  | cleanup =>
    simp only [applyOp] at hr'
    rw [cleanupOrphanedFiles_eq cfg st hnd] at hr'
    obtain ⟨r₀, hr₀, hre⟩ := List.mem_map.mp hr'
    have hid0 : r₀.id = r.id := by
      rw [← hre, flipIfMissing_id] at hid
      exact hid
    have heq : r₀ = r := List.inj_on_of_nodup_map hnd hr₀ hr hid0
    rw [← hre, heq]
    exact flipIfMissing_active_of_inactive cfg st.disk r hact

/-! Concrete instances used by the counterexamples and witnesses below. -/

/-- A fully-default environment: no configuration variable set. -/
def envNone : EnvConfig := ⟨none, none, none, none, none, none⟩

/-- The configuration the constructor builds with no variables set. -/
def cfgEx : Config := mkConfig envNone

/-- An upload environment in which every external effect succeeds. -/
def envAllOk : UploadEnv :=
  { uuid := "u-1", recId := "f-1", now := 10, writeOk := true, thumbOk := true,
    saveOk := true, unlinkOk := true, thumbBytes := [7] }

/-- As `envAllOk`, but the sharp thumbnail derivation fails. -/
def envThumbFail : UploadEnv := { envAllOk with thumbOk := false }

/-- As `envAllOk`, but the metadata save fails. -/
def envSaveFail : UploadEnv := { envAllOk with saveOk := false }

/-- A small png upload. -/
def pngFile : MulterFile :=
  { originalname := "photo.png", mimetype := "image/png", size := 4,
    buffer := [1, 2, 3, 4] }

/-- A small pdf upload. -/
def pdfFile : MulterFile :=
  { originalname := "doc.pdf", mimetype := "application/pdf", size := 4,
    buffer := [5, 6] }

/-- An upload with a mimetype outside the default allow-list. -/
def exeFile : MulterFile :=
  { originalname := "setup.exe", mimetype := "application/x-msdownload",
    size := 4, buffer := [9] }

/-- An upload one byte over the default maximum size. -/
def bigFile : MulterFile :=
  { originalname := "big.bin", mimetype := "application/pdf",
    size := 10485761, buffer := [] }

/-- A PROFILE-category upload body. -/
def dtoProfile : UploadDto := ⟨"PROFILE", none, none, none, none, none⟩

/-- The empty state: empty disk, empty store. -/
def stEmpty : State := ⟨[], []⟩

/-- The record a thumbnail-failed png upload of `pngFile` produces. -/
def fmPngNoThumb : FileRecord :=
  { id := "f-1", originalFilename := "photo.png", storedFilename := "u-1.png",
    mimetype := "image/png", size := 4, category := "PROFILE",
    entityType := none, entityId := none, path := "profiles/u-1.png",
    thumbnailPath := none, uploadedBy := none, description := none,
    metadata := none, uploadedAt := 10, updatedAt := 10, active := true }

/-- The state after that thumbnail-failed png upload. -/
def stPngNoThumb : State :=
  ⟨[("./uploads/profiles/u-1.png", [1, 2, 3, 4])], [fmPngNoThumb]⟩

/-- The record a fully successful png upload of `pngFile` produces. -/
def fmPng : FileRecord :=
  { fmPngNoThumb with thumbnailPath := some "thumbnails/thumb_u-1.png" }

/-- The state after that fully successful png upload. -/
def stPng : State :=
  ⟨[("./uploads/thumbnails/thumb_u-1.png", [7]),
    ("./uploads/profiles/u-1.png", [1, 2, 3, 4])], [fmPng]⟩

/-- An active record whose blob is absent from the (empty) disk. -/
def recOrphan : FileRecord :=
  { id := "r-1", originalFilename := "a.txt", storedFilename := "s-1.txt",
    mimetype := "text/plain", size := 1, category := "OTHER",
    entityType := none, entityId := none, path := "temp/s-1.txt",
    thumbnailPath := none, uploadedBy := none, description := none,
    metadata := none, uploadedAt := 0, updatedAt := 0, active := true }

/-- A store holding only `recOrphan`, over an empty disk. -/
def stOrphan : State := ⟨[], [recOrphan]⟩

/-- An active record whose blob is present on disk. -/
def recDel : FileRecord :=
  { recOrphan with
    id := "d-1"
    storedFilename := "s-2.txt"
    path := "temp/s-2.txt" }

/-- A state holding `recDel` and its blob. -/
def stDelete : State := ⟨[("./uploads/temp/s-2.txt", [1])], [recDel]⟩

/-- Three PROFILE records: two active, one soft-deleted. -/
def recP1 : FileRecord :=
  { recOrphan with id := "p1", category := "PROFILE", uploadedAt := 1 }

/-- Second, most recent, active PROFILE record. -/
def recP2 : FileRecord :=
  { recOrphan with id := "p2", category := "PROFILE", uploadedAt := 5 }

/-- A soft-deleted PROFILE record. -/
def recP3 : FileRecord :=
  { recOrphan with
    id := "p3"
    category := "PROFILE"
    uploadedAt := 7
    active := false }

/-- A listing state with two active and one inactive PROFILE records. -/
def stList : State := ⟨[], [recP1, recP2, recP3]⟩

/-- An already-inactive record, for the irreversibility witness. -/
def recNine : FileRecord := { recOrphan with id := "r-9", active := false }

/-- A store holding only the inactive `recNine`. -/
def stNine : State := ⟨[], [recNine]⟩

/-- C1 counterexample: on a store holding one record whose blob is missing
from disk, the first reconciliation run reports `removed = 1`, and an
immediately repeated run — with no intervening change to disk or store —
reports `removed = 1` again, not `removed = 0` as the claim states. -/
theorem cleanup_rerun_count_cex :
    (cleanupOrphanedFiles cfgEx stOrphan).2 = 1 ∧
    (cleanupOrphanedFiles cfgEx (cleanupOrphanedFiles cfgEx stOrphan).1).2 = 1 ∧
    ¬ (cleanupOrphanedFiles cfgEx
        (cleanupOrphanedFiles cfgEx stOrphan).1).2 = 0 := by
  decide

/-- C1 witness: the amended reconciliation statement instantiated on the
one-orphan store. -/
theorem cleanup_flips_missing_and_recounts_witness :
    (cleanupOrphanedFiles cfgEx stOrphan).2 =
      stOrphan.store.countP (blobMissing cfgEx stOrphan.disk) ∧
    cleanupOrphanedFiles cfgEx (cleanupOrphanedFiles cfgEx stOrphan).1 =
      ((cleanupOrphanedFiles cfgEx stOrphan).1,
        (cleanupOrphanedFiles cfgEx stOrphan).2) :=
  ⟨(cleanup_flips_missing_and_recounts cfgEx stOrphan (by decide)).2.2.2.2.1,
   (cleanup_flips_missing_and_recounts cfgEx stOrphan (by decide)).2.2.2.2.2⟩

/-- C2 witness: the validation-atomicity theorem applied to a concrete
oversized upload and a concrete disallowed-mimetype upload. -/
theorem upload_validation_atomic_witness :
    uploadFile cfgEx envAllOk bigFile dtoProfile stEmpty =
      (stEmpty, .error .payloadTooLarge) ∧
    uploadFile cfgEx envAllOk exeFile dtoProfile stEmpty =
      (stEmpty, .error .unsupportedType) :=
  ⟨(upload_validation_atomic envNone envAllOk bigFile dtoProfile stEmpty).1
      (by decide),
   (upload_validation_atomic envNone envAllOk exeFile dtoProfile stEmpty).2
      (by decide) (by decide)⟩

/-- C3 witness: the compensating-cleanup theorem applied to a concrete pdf
upload whose metadata save fails. -/
theorem upload_compensating_cleanup_witness :
    (uploadFile cfgEx envSaveFail pdfFile dtoProfile stEmpty).2 =
      .error .storageBackendError ∧
    (uploadFile cfgEx envSaveFail pdfFile dtoProfile stEmpty).1.store =
      stEmpty.store ∧
    diskHas (uploadFile cfgEx envSaveFail pdfFile dtoProfile stEmpty).1.disk
      (pathJoin cfgEx.uploadPath
        (pathJoin (getSubdirectoryByCategory dtoProfile.category)
          (envSaveFail.uuid ++ extname pdfFile.originalname))) = false := by
  obtain ⟨h1, h2, h3⟩ := upload_compensating_cleanup cfgEx envSaveFail pdfFile
    dtoProfile stEmpty (by decide) (by decide) (by decide) (by decide)
  exact ⟨h1, h2, h3 (by decide)⟩

/-- C4 witness: with no configuration the default list is effective and a
disallowed mimetype concretely fails with `unsupportedType`. -/
theorem mime_allowlist_always_enforced_witness :
    (mkConfig envNone).allowedMimeTypes = DEFAULT_ALLOWED_MIME_TYPES ∧
    uploadFile (mkConfig envNone) envAllOk exeFile dtoProfile stEmpty =
      (stEmpty, .error .unsupportedType) :=
  ⟨(mime_allowlist_always_enforced envNone envAllOk exeFile dtoProfile
      stEmpty).2.1 rfl,
   (mime_allowlist_always_enforced envNone envAllOk exeFile dtoProfile
      stEmpty).2.2 (by decide) (by decide)⟩

/-- C5 counterexample: a successful upload of mimetype "image/png" in which
the sharp derivation fails returns a record with `thumbnailPath = none`,
refuting the claim that a successful png upload always carries a non-null
`thumbnailPath`. -/
theorem png_upload_null_thumbnail_cex :
    pngFile.mimetype = "image/png" ∧
    (uploadFile cfgEx envThumbFail pngFile dtoProfile stEmpty).2.map
      FileRecord.thumbnailPath = .ok none := by
  decide

/-- C5 witness: the amended thumbnail-presence statement instantiated on the
concrete thumbnail-failed png upload. -/
theorem thumbnailPath_presence_witness :
    strStartsWith pngFile.mimetype "image/" = true ∧
    fmPngNoThumb.thumbnailPath = none :=
  ⟨by decide,
   (thumbnailPath_presence cfgEx envThumbFail pngFile dtoProfile stEmpty
      stPngNoThumb fmPngNoThumb (by decide)).2.2 (by decide) (by decide)⟩

/-- C6 witness: soft-deleting a concrete active record succeeds and its
metadata is no longer retrievable. -/
theorem deleteFile_soft_delete_witness :
    (deleteFile "d-1" stDelete).2 = .ok () ∧
    getFileMetadata "d-1" (deleteFile "d-1" stDelete).1 =
      .error .notFound := by
  obtain ⟨-, h2⟩ := deleteFile_soft_delete "d-1" stDelete (by decide)
  obtain ⟨ha, -, -, -, -, hf, -⟩ := h2 recDel (by decide) (by decide) (by decide)
  exact ⟨ha, hf⟩

/-- C7 witness: the listing specification instantiated on a store with two
active PROFILE records and one inactive one, at `limit = 2`, `offset = 0`. -/
theorem listFiles_spec_witness :
    recP2.active = true ∧
    optFilter (some "PROFILE") recP2.category = true ∧
    (listFiles (some "PROFILE") none none none 2 0 stList).2 =
      (stList.store.filter
        (listPred (some "PROFILE") none none none)).length :=
  ⟨((listFiles_spec (some "PROFILE") none none none 2 0 stList).1 recP2
      (by decide)).2.1,
   ((listFiles_spec (some "PROFILE") none none none 2 0 stList).1 recP2
      (by decide)).2.2.1,
   (listFiles_spec (some "PROFILE") none none none 2 0 stList).2.2.2.2.1⟩

/-- C8 witness: the path-derivation statement instantiated on the concrete
successful png upload, plus the catch-all subdirectory at "ATTACHMENT". -/
theorem path_derivation_witness :
    fmPng.path = pathJoin (getSubdirectoryByCategory fmPng.category)
      fmPng.storedFilename ∧
    getSubdirectoryByCategory "ATTACHMENT" = "temp" :=
  ⟨(path_derivation cfgEx envAllOk pngFile dtoProfile stEmpty stPng fmPng
      (by decide)).2.2.1,
   (path_derivation cfgEx envAllOk pngFile dtoProfile stEmpty stPng fmPng
      (by decide)).2.2.2.2.2.2 "ATTACHMENT" (by decide) (by decide)
      (by decide)⟩

/-- C9 witness: irreversibility instantiated on a store with one inactive
record and a soft-delete of a different id. -/
theorem active_flag_irreversible_witness : recNine.active = false :=
  active_flag_irreversible cfgEx (.softDelete "zz") stNine (by decide) trivial
    recNine (by decide) (by decide) recNine (by decide) rfl

/-- C10 witness: the orphaned-thumbnail statement instantiated on the
concrete save-failed png upload. -/
theorem orphaned_thumbnail_survives_witness :
    (uploadFile cfgEx envSaveFail pngFile dtoProfile stEmpty).2 =
      .error .storageBackendError ∧
    diskHas (uploadFile cfgEx envSaveFail pngFile dtoProfile stEmpty).1.disk
      (pathJoin cfgEx.uploadPath (pathJoin "thumbnails"
        ("thumb_" ++ (envSaveFail.uuid ++ extname pngFile.originalname))))
      = true := by
  obtain ⟨h1, -, -, h4⟩ := orphaned_thumbnail_survives cfgEx envSaveFail
    pngFile dtoProfile stEmpty (by decide) (by decide) (by decide) (by decide)
    (by decide) (by decide) (by decide)
  exact ⟨h1, h4⟩

end FcgStorage
